import Mathlib

/-!
Shallow embedding of the har-to-hoverfly converter.

The repository contains two program variants that share one purpose
(turning a HAR capture into a Hoverfly simulation document):

* namespace `HTH` embeds `har-to-hoverfly.go` — positional input
  argument, `--max-response-bytes`, `--skip-non-text` (sentinel
  substitution), exact host filter on the parsed host, summary mode
  rendering padded rows.
* namespace `ALT` embeds the second main program — `--input` flag,
  `--max-body-bytes`, `--ignore-non-text` (outright exclusion),
  `--allowed-content-types`, substring host filter applied to the raw
  URL string, and a `convertEntryToPair` pair builder.

Modelling conventions.  Go byte strings are modelled as Lean `String`
values at character granularity: `len(s)` becomes `String.length` and
`s[:n]` becomes `goSlice`; the two agree on ASCII data and none of the
verified properties depends on the distinction.  The Go standard
library URL parser is not part of the repository, so the pipeline is
parameterised by an arbitrary parse function `String → Option URL`;
`none` models a `url.Parse` error.  A parsed `URL` carries the fields
the programs read: `Host`, `Path`, `RawQuery`, and the key-grouped
result of `Query()` with per-key values in observation order.  Go maps
built incrementally by `append` under a key are modelled as functions
from keys to the accumulated list.
-/

/-- Helper for goContains: does the needle occur contiguously in the
haystack list. -/
def listContains : List Char → List Char → Bool
  | hay, needle =>
    match hay with
    | [] => needle.isEmpty
    | _ :: t => needle.isPrefixOf hay || listContains t needle

/-- Model of Go strings.Contains: substring containment. -/
def goContains (s sub : String) : Bool := listContains s.data sub.data

/-- Model of Go strings.ToLower (exact on ASCII data). -/
def goToLower (s : String) : String := ⟨s.data.map Char.toLower⟩

/-- Model of the Go slice s[:n] at character granularity. -/
def goSlice (s : String) (n : Nat) : String := ⟨s.data.take n⟩

/-- Helper for goSplit: split a character list on a separator. -/
def splitOnCharAux (sep : Char) : List Char → List Char → List String
  | [], acc => [⟨acc.reverse⟩]
  | c :: cs, acc =>
    if c = sep then ⟨acc.reverse⟩ :: splitOnCharAux sep cs []
    else splitOnCharAux sep cs (c :: acc)

/-- Model of Go strings.Split with a one-character separator. -/
def goSplit (s : String) (sep : Char) : List String := splitOnCharAux sep s.data []

/-- Model of the %-Ns directive of fmt.Sprintf: left-justified padding. -/
def padRight (s : String) (w : Nat) : String :=
  s ++ ⟨List.replicate (w - s.length) ' '⟩

/-- The fields of a parsed URL that the programs read.  queryGroups is
the key-grouped result of the Query() method, per-key values in
observation order. -/
structure URL where
  host : String
  path : String
  rawQuery : String
  queryGroups : List (String × List String)
deriving DecidableEq

namespace HTH

/-- One name/value item of an ordered HAR header list. -/
structure NameValue where
  name : String
  value : String
deriving DecidableEq

/-- The request part of a HAR entry read by har-to-hoverfly.go. -/
structure HarRequest where
  method : String
  url : String
  headers : List NameValue
  postDataText : String
deriving DecidableEq

/-- The response part of a HAR entry read by har-to-hoverfly.go. -/
structure HarResponse where
  status : Int
  headers : List NameValue
  contentText : String
deriving DecidableEq

/-- One captured exchange of the archive. -/
structure HarEntry where
  request : HarRequest
  response : HarResponse
deriving DecidableEq

/-- A (matcher-kind, value) pair of the simulation schema. -/
structure FieldMatcher where
  matcher : String
  value : String
deriving DecidableEq

/-- The request side of a simulation pair.  body is an Option: none
models the nil slice that the omitempty tag drops from the output. -/
structure Request where
  method : List FieldMatcher
  destination : List FieldMatcher
  path : List FieldMatcher
  body : Option (List FieldMatcher)
  headers : String → List FieldMatcher
  query : String → List FieldMatcher

/-- The response side of a simulation pair. -/
structure Response where
  status : Int
  body : String
  headers : String → List String

/-- One simulation pair. -/
structure Pair where
  request : Request
  response : Response
  labels : List String

/-- The configuration flags of har-to-hoverfly.go that affect the
per-entry transformation: --max-response-bytes (default -1),
--skip-non-text (default false), --host (default ""). -/
structure Config where
  maxResponseSize : Int
  skipNonText : Bool
  hostFilter : String

/-- Embeds isTextContentType of har-to-hoverfly.go. -/
def isTextContentType (contentType : String) : Bool :=
  let lower := goToLower contentType
  goContains lower "json" || goContains lower "text" || goContains lower "xml"

/-- Embeds truncate of har-to-hoverfly.go (the program calls it with
the widths 10 and 50 only). -/
def truncate (s : String) (max : Nat) : String :=
  if s.length ≤ max then s
  else if max ≤ 3 then goSlice s max
  else goSlice s (max - 3) ++ "..."

/-- Embeds the request-header loop of main: append one exact matcher
under the header name, per observed header, in order. -/
def buildReqHeaders (hs : List NameValue) : String → List FieldMatcher :=
  hs.foldl
    (fun m h => fun n => if n = h.name then m n ++ [⟨"exact", h.value⟩] else m n)
    (fun _ => [])

/-- Embeds the query-parameter loop of main: for each key group of
u.Query(), append one exact matcher per observed value under the key. -/
def buildReqQuery (groups : List (String × List String)) : String → List FieldMatcher :=
  groups.foldl
    (fun m g =>
      g.2.foldl (fun m2 v => fun k => if k = g.1 then m2 k ++ [⟨"exact", v⟩] else m2 k) m)
    (fun _ => [])

/-- Embeds the content-type scan of the response-header loop of main:
the value of the last header whose lower-cased name is content-type,
or the empty string. -/
def contentTypeOf (hs : List NameValue) : String :=
  hs.foldl (fun ct h => if goToLower h.name = "content-type" then h.value else ct) ""

/-- Embeds the response-header map construction of main. -/
def buildRespHeaders (hs : List NameValue) : String → List String :=
  hs.foldl (fun m h => fun n => if n = h.name then m n ++ [h.value] else m n) (fun _ => [])

/-- Embeds the response-body policy of main: the size check and the
non-text substitution check are two consecutive independent
conditionals, in this order. -/
def computeResponseBody (cfg : Config) (contentType bodyText : String) : String :=
  let b1 :=
    if 0 ≤ cfg.maxResponseSize ∧ cfg.maxResponseSize < (bodyText.length : Int) then ""
    else bodyText
  if cfg.skipNonText = true ∧ isTextContentType contentType = false then
    "NON_TEXT_RESPONSE_SKIPPED"
  else b1

/-- Embeds the Pair literal of main for one entry whose URL parsed to
u, together with its preceding header/query/body computations. -/
def buildPair (cfg : Config) (u : URL) (entry : HarEntry) : Pair :=
  { request :=
      { method := [⟨"exact", entry.request.method⟩]
        destination := [⟨"exact", u.host⟩]
        path := [⟨"exact", u.path⟩]
        body :=
          if entry.request.postDataText ≠ "" then
            some [⟨"exact", entry.request.postDataText⟩]
          else none
        headers := buildReqHeaders entry.request.headers
        query := buildReqQuery u.queryGroups }
    response :=
      { status := entry.response.status
        body :=
          computeResponseBody cfg (contentTypeOf entry.response.headers)
            entry.response.contentText
        headers := buildRespHeaders entry.response.headers }
    labels := [] }

/-- Embeds one iteration of the conversion loop of main: parse the
URL (continue on error), apply the host filter (continue on mismatch),
otherwise build the pair. -/
def processEntry (cfg : Config) (parse : String → Option URL) (entry : HarEntry) :
    Option Pair :=
  match parse entry.request.url with
  | none => none
  | some u =>
    if cfg.hostFilter ≠ "" ∧ u.host ≠ cfg.hostFilter then none
    else some (buildPair cfg u entry)

/-- Embeds the whole conversion loop: the simulation document holds
the pairs of the non-skipped entries, in input order. -/
def buildPairs (cfg : Config) (parse : String → Option URL) (entries : List HarEntry) :
    List Pair :=
  entries.filterMap (processEntry cfg parse)

/-- Embeds the row formatting of summary mode. -/
def summaryRow (method path rawQuery : String) : String :=
  padRight (truncate method 10) 10 ++ " " ++ padRight (truncate path 50) 50 ++ " " ++
    padRight (truncate rawQuery 50) 50

/-- Embeds one iteration of the summary loop: parse the URL (continue
on error), apply the host filter, otherwise yield (host, rendered row). -/
def summaryEntry (hostFilter : String) (parse : String → Option URL) (entry : HarEntry) :
    Option (String × String) :=
  match parse entry.request.url with
  | none => none
  | some u =>
    if hostFilter ≠ "" ∧ u.host ≠ hostFilter then none
    else some (u.host, summaryRow entry.request.method u.path u.rawQuery)

/-- Embeds the summary accumulation map: rendered rows appended under
their host, in input order. -/
def buildSummary (hostFilter : String) (parse : String → Option URL)
    (entries : List HarEntry) : String → List String :=
  entries.foldl
    (fun m e =>
      match summaryEntry hostFilter parse e with
      | none => m
      | some hs => fun h => if h = hs.1 then m h ++ [hs.2] else m h)
    (fun _ => [])

end HTH

namespace ALT

/-- The content object of a response in the second variant. -/
structure Content where
  mimeType : String
  text : String
deriving DecidableEq

/-- The request part of an entry in the second variant. -/
structure AltRequest where
  method : String
  url : String
deriving DecidableEq

/-- The response part of an entry in the second variant. -/
structure AltResponse where
  status : Int
  content : Content
deriving DecidableEq

/-- One captured exchange of the archive (second variant). -/
structure Entry where
  request : AltRequest
  response : AltResponse
deriving DecidableEq

/-- The default value of the --allowed-content-types flag. -/
def defaultAllowedTypes : String := "json,xml,text/html,text/javascript"

/-- Embeds strings.Split of the flag value on commas. -/
def allowedContentTypes (allowedTypes : String) : List String := goSplit allowedTypes ','

/-- Embeds isTextContent of the second variant: the lower-cased MIME
type contains some allowed substring. -/
def isTextContent (mimeType : String) (allowed : List String) : Bool :=
  allowed.any fun substr => goContains (goToLower mimeType) substr

/-- Embeds parseURL of the second variant: a parse error is swallowed
and replaced with the zero URL value. -/
def parseURL (parse : String → Option URL) (raw : String) : URL :=
  match parse raw with
  | none => { host := "", path := "", rawQuery := "", queryGroups := [] }
  | some u => u

/-- Embeds convertEntryToPair of the second variant. -/
def convertEntryToPair (parse : String → Option URL) (entry : Entry) (sizeLimit : Int) :
    HTH.Pair :=
  let body0 := entry.response.content.text
  let body := if 0 < sizeLimit ∧ sizeLimit < (body0.length : Int) then "" else body0
  let reqURL := parseURL parse entry.request.url
  { request :=
      { method := [⟨"exact", entry.request.method⟩]
        destination := [⟨"exact", reqURL.host⟩]
        path := [⟨"exact", reqURL.path⟩]
        body := none
        headers := fun _ => []
        query := fun _ => [] }
    response :=
      { status := entry.response.status
        body := body
        headers := fun n => if n = "Content-Type" then [entry.response.content.mimeType] else [] }
    labels := [entry.request.method] }

/-- The configuration flags of the second variant that affect the
per-entry transformation: --max-body-bytes (default 0),
--ignore-non-text (default false), --allowed-content-types, --host. -/
structure AltConfig where
  sizeLimit : Int
  ignoreNonText : Bool
  allowedTypes : String
  restrictHost : String

/-- Embeds one iteration of the main loop of the second variant: the
host filter is substring containment tested on the raw URL string,
then the non-text exclusion, then the pair conversion. -/
def altProcessEntry (cfg : AltConfig) (parse : String → Option URL) (entry : Entry) :
    Option HTH.Pair :=
  if cfg.restrictHost ≠ "" ∧ goContains entry.request.url cfg.restrictHost = false then none
  else if cfg.ignoreNonText = true ∧
      isTextContent entry.response.content.mimeType (allowedContentTypes cfg.allowedTypes) = false then
    none
  else some (convertEntryToPair parse entry cfg.sizeLimit)

/-- Embeds the whole conversion loop of the second variant. -/
def altBuildPairs (cfg : AltConfig) (parse : String → Option URL) (entries : List Entry) :
    List HTH.Pair :=
  entries.filterMap (altProcessEntry cfg parse)

/-- Embeds truncate of the second variant (called with width 50). -/
def truncate (s : String) (max : Nat) : String :=
  if max < s.length then goSlice s (max - 3) ++ "..." else s

end ALT

/-- A concrete parsed URL used by witnesses. -/
def demoURL : URL :=
  { host := "api.example.com"
    path := "/api/products"
    rawQuery := "category=shoes&limit=5"
    queryGroups := [("category", ["shoes"]), ("limit", ["5"])] }

/-- A concrete parsed URL whose host differs from a string embedded in
its query, used by counterexamples. -/
def evilURL : URL :=
  { host := "evil.example"
    path := "/"
    rawQuery := "q=api.example.com"
    queryGroups := [("q", ["api.example.com"])] }

/-- A concrete parse function used by witnesses and counterexamples. -/
def demoParse : String → Option URL := fun s =>
  if s = "http://api.example.com/api/products?category=shoes&limit=5" then some demoURL
  else if s = "http://evil.example/?q=api.example.com" then some evilURL
  else none

/-- A parse function that fails on every input, modelling a URL that
url.Parse rejects. -/
def noParse : String → Option URL := fun _ => none

/-- A concrete captured exchange: GET with repeated request headers, a
non-text (image/png) response of four bytes. -/
def demoEntry : HTH.HarEntry :=
  { request :=
      { method := "GET"
        url := "http://api.example.com/api/products?category=shoes&limit=5"
        headers := [⟨"Accept", "application/json"⟩, ⟨"Accept", "text/plain"⟩]
        postDataText := "" }
    response :=
      { status := 200
        headers := [⟨"Content-Type", "image/png"⟩]
        contentText := "abcd" } }

/-- A concrete captured exchange carrying a request body and a JSON
response, with no Content-Type response header. -/
def postEntry : HTH.HarEntry :=
  { request :=
      { method := "POST"
        url := "http://api.example.com/api/products?category=shoes&limit=5"
        headers := [⟨"Content-Type", "application/json"⟩]
        postDataText := "x=1" }
    response :=
      { status := 201
        headers := [⟨"X-Powered-By", "tests"⟩]
        contentText := "created" } }

/-- A concrete exchange whose URL no parse function accepts. -/
def badEntry : HTH.HarEntry :=
  { request :=
      { method := "GET"
        url := "zzz"
        headers := []
        postDataText := "" }
    response :=
      { status := 200
        headers := []
        contentText := "ok" } }

/-- A second-variant exchange whose URL fails to parse. -/
def altEntryBadURL : ALT.Entry :=
  { request := { method := "GET", url := "zzz" }
    response := { status := 200, content := { mimeType := "text/html", text := "ok" } } }

/-- A second-variant exchange whose raw URL contains a host name that
is not its destination host. -/
def altEntryEvil : ALT.Entry :=
  { request := { method := "GET", url := "http://evil.example/?q=api.example.com" }
    response := { status := 200, content := { mimeType := "text/html", text := "ok" } } }

/-- Generalised accumulation law of the request-header loop: the value
of the built map at a name is the accumulator value followed by one
exact matcher per header of that name, in observation order. -/
theorem foldlHeaders_eq (hs : List HTH.NameValue) (m : String → List HTH.FieldMatcher)
    (n : String) :
    (hs.foldl (fun m h => fun x => if x = h.name then m x ++ [⟨"exact", h.value⟩] else m x) m) n =
      m n ++ (hs.filter fun h => n = h.name).map
        (fun h => (⟨"exact", h.value⟩ : HTH.FieldMatcher)) := by
  induction hs generalizing m with
  | nil => simp
  | cons h t ih =>
    rw [List.foldl_cons, ih]
    by_cases hn : n = h.name <;> simp [hn, List.filter_cons]

/-- The request-header map of the first variant holds, under each
name, exactly the matchers of the headers bearing that name. -/
theorem buildReqHeaders_eq (hs : List HTH.NameValue) (n : String) :
    HTH.buildReqHeaders hs n =
      (hs.filter fun h => n = h.name).map (fun h => (⟨"exact", h.value⟩ : HTH.FieldMatcher)) := by
  unfold HTH.buildReqHeaders
  rw [foldlHeaders_eq]
  simp

/-- Accumulation law of the inner value loop of the query map: all
values of one key group are appended under that key, in order. -/
theorem foldlQueryInner_eq (key : String) (vs : List String)
    (m : String → List HTH.FieldMatcher) (k : String) :
    (vs.foldl (fun m2 v => fun x => if x = key then m2 x ++ [⟨"exact", v⟩] else m2 x) m) k =
      if k = key then m k ++ vs.map (fun v => (⟨"exact", v⟩ : HTH.FieldMatcher)) else m k := by
  induction vs generalizing m with
  | nil => by_cases h : k = key <;> simp [h]
  | cons v t ih =>
    rw [List.foldl_cons, ih]
    by_cases h : k = key <;> simp [h]

/-- Generalised accumulation law of the query loop over key groups. -/
theorem foldlQuery_eq (groups : List (String × List String))
    (m : String → List HTH.FieldMatcher) (k : String) :
    (groups.foldl
        (fun m g =>
          g.2.foldl (fun m2 v => fun x => if x = g.1 then m2 x ++ [⟨"exact", v⟩] else m2 x) m)
        m) k =
      m k ++ ((groups.filter fun g => k = g.1).map
        (fun g => g.2.map fun v => (⟨"exact", v⟩ : HTH.FieldMatcher))).flatten := by
  induction groups generalizing m with
  | nil => simp
  | cons g t ih =>
    rw [List.foldl_cons, ih]
    simp only [foldlQueryInner_eq]
    by_cases h : k = g.1 <;> simp [h, List.filter_cons]

/-- The query map of the first variant holds, under each key, the
concatenation of the value groups recorded for that key. -/
theorem buildReqQuery_eq (groups : List (String × List String)) (k : String) :
    HTH.buildReqQuery groups k =
      ((groups.filter fun g => k = g.1).map
        (fun g => g.2.map fun v => (⟨"exact", v⟩ : HTH.FieldMatcher))).flatten := by
  unfold HTH.buildReqQuery
  rw [foldlQuery_eq]
  simp

/-- The content-type scan returns the accumulator unchanged when no
header name lower-cases to content-type. -/
theorem foldlContentType_eq (hs : List HTH.NameValue) (acc : String)
    (h : ∀ x ∈ hs, ¬ goToLower x.name = "content-type") :
    hs.foldl (fun ct x => if goToLower x.name = "content-type" then x.value else ct) acc = acc := by
  induction hs generalizing acc with
  | nil => rfl
  | cons x t ih =>
    rw [List.foldl_cons, if_neg (h x (List.mem_cons_self x t))]
    exact ih acc (fun y hy => h y (List.mem_cons_of_mem x hy))

/-- Dropping one element that a filterMap rejects does not change the
result. -/
theorem filterMap_skip {α β : Type} (f : α → Option β) (pre post : List α) (e : α)
    (h : f e = none) :
    (pre ++ e :: post).filterMap f = (pre ++ post).filterMap f := by
  simp [List.filterMap_append, List.filterMap_cons, h]

/-- Dropping one entry that the summary loop skips does not change the
summary map. -/
theorem buildSummary_skip (hf : String) (parse : String → Option URL)
    (pre post : List HTH.HarEntry) (e : HTH.HarEntry)
    (h : HTH.summaryEntry hf parse e = none) :
    HTH.buildSummary hf parse (pre ++ e :: post) = HTH.buildSummary hf parse (pre ++ post) := by
  unfold HTH.buildSummary
  rw [List.foldl_append, List.foldl_append, List.foldl_cons]
  congr 1
  simp [h]

/-- Every request matcher of a pair built by the first variant is an
exact matcher. -/
theorem buildPair_matchers_exact (cfg : HTH.Config) (u : URL) (e : HTH.HarEntry)
    (n k : String) (fm : HTH.FieldMatcher)
    (h : fm ∈ (HTH.buildPair cfg u e).request.method ∨
        fm ∈ (HTH.buildPair cfg u e).request.destination ∨
        fm ∈ (HTH.buildPair cfg u e).request.path ∨
        fm ∈ (HTH.buildPair cfg u e).request.body.getD [] ∨
        fm ∈ (HTH.buildPair cfg u e).request.headers n ∨
        fm ∈ (HTH.buildPair cfg u e).request.query k) :
    fm.matcher = "exact" := by
  rcases h with h | h | h | h | h | h
  · rw [List.mem_singleton.mp h]
  · rw [List.mem_singleton.mp h]
  · rw [List.mem_singleton.mp h]
  · by_cases hb : e.request.postDataText ≠ ""
    · simp only [HTH.buildPair, if_pos hb, Option.getD_some] at h
      rw [List.mem_singleton.mp h]
    · simp only [HTH.buildPair, if_neg hb, Option.getD_none] at h
      exact absurd h (List.not_mem_nil fm)
  · have h2 : fm ∈ HTH.buildReqHeaders e.request.headers n := h
    rw [buildReqHeaders_eq] at h2
    rcases List.mem_map.mp h2 with ⟨a, _, rfl⟩
    rfl
  · have h2 : fm ∈ HTH.buildReqQuery u.queryGroups k := h
    rw [buildReqQuery_eq] at h2
    rcases List.mem_flatten.mp h2 with ⟨l, hl, hfl⟩
    rcases List.mem_map.mp hl with ⟨g, _, rfl⟩
    rcases List.mem_map.mp hfl with ⟨v, _, rfl⟩
    rfl

/-- Every request matcher of a pair built by the second variant is an
exact matcher. -/
theorem convertPair_matchers_exact (parse : String → Option URL) (e : ALT.Entry) (l : Int)
    (n k : String) (fm : HTH.FieldMatcher)
    (h : fm ∈ (ALT.convertEntryToPair parse e l).request.method ∨
        fm ∈ (ALT.convertEntryToPair parse e l).request.destination ∨
        fm ∈ (ALT.convertEntryToPair parse e l).request.path ∨
        fm ∈ (ALT.convertEntryToPair parse e l).request.body.getD [] ∨
        fm ∈ (ALT.convertEntryToPair parse e l).request.headers n ∨
        fm ∈ (ALT.convertEntryToPair parse e l).request.query k) :
    fm.matcher = "exact" := by
  rcases h with h | h | h | h | h | h
  · rw [List.mem_singleton.mp h]
  · rw [List.mem_singleton.mp h]
  · rw [List.mem_singleton.mp h]
  · simp [ALT.convertEntryToPair] at h
  · simp [ALT.convertEntryToPair] at h
  · simp [ALT.convertEntryToPair] at h

/-- Claim C1 (amended): in the first variant, when both the size limit
and the skip-non-text substitution flag are configured and the body
exceeds the limit, the emitted body is the empty string only if the
exchange is classified text-like; the substitution check runs after
the size check and is not short-circuited by it, so a non-text
exchange still receives the sentinel literal. -/
theorem claim1_theorem (cfg : HTH.Config) (contentType bodyText : String)
    (hskip : cfg.skipNonText = true) (hlim : 0 ≤ cfg.maxResponseSize)
    (hover : cfg.maxResponseSize < (bodyText.length : Int)) :
    HTH.computeResponseBody cfg contentType bodyText =
      if HTH.isTextContentType contentType then "" else "NON_TEXT_RESPONSE_SKIPPED" := by
  simp only [HTH.computeResponseBody]
  cases hb : HTH.isTextContentType contentType <;> simp [hb, hskip, hlim, hover]

/-- Claim C1 counterexample: with limit 1 and skip-non-text set, a
four-byte image/png body is emitted as the sentinel literal, not as
the empty string, both at the body-policy level and through the whole
conversion loop. -/
theorem claim1_counterexample :
    HTH.computeResponseBody ⟨1, true, ""⟩ "image/png" "abcd" = "NON_TEXT_RESPONSE_SKIPPED" ∧
    (1 : Int) < (("abcd" : String).length : Int) ∧
    "NON_TEXT_RESPONSE_SKIPPED" ≠ "" ∧
    ((HTH.buildPairs ⟨1, true, ""⟩ demoParse [demoEntry]).map fun p => p.response.body) =
      ["NON_TEXT_RESPONSE_SKIPPED"] :=
  ⟨by decide, by decide, by decide, by decide⟩

/-- Claim C1 witness: a text-like oversized body really is emitted as
the empty string. -/
theorem claim1_witness :
    HTH.computeResponseBody ⟨1, true, ""⟩ "application/json" "abcd" = "" := by
  have h := claim1_theorem ⟨1, true, ""⟩ "application/json" "abcd" rfl (by decide) (by decide)
  rw [h]
  decide

/-- Claim C2 (amended): the second variant labels every produced pair
with the singleton list holding the request method; the first variant
labels every produced pair with the empty list. -/
theorem claim2_theorem :
    (∀ (parse : String → Option URL) (e : ALT.Entry) (sizeLimit : Int),
        (ALT.convertEntryToPair parse e sizeLimit).labels = [e.request.method]) ∧
    (∀ (cfg : HTH.Config) (u : URL) (e : HTH.HarEntry),
        (HTH.buildPair cfg u e).labels = []) :=
  ⟨fun _ _ _ => rfl, fun _ _ _ => rfl⟩

/-- Claim C2 counterexample: the first variant builds a pair whose
label list is empty rather than the singleton of the request method. -/
theorem claim2_counterexample :
    (HTH.buildPair ⟨-1, false, ""⟩ demoURL demoEntry).labels = [] ∧
    demoEntry.request.method = "GET" ∧
    (HTH.buildPair ⟨-1, false, ""⟩ demoURL demoEntry).labels ≠ [demoEntry.request.method] :=
  ⟨rfl, rfl, by decide⟩

/-- Claim C3 (amended): in the first variant an entry whose URL fails
to parse contributes no pair and no summary row and the run continues
over the remaining entries with no error; in the second variant the
parse failure is swallowed by parseURL and the entry still contributes
a pair whose destination and path matchers hold the empty string. -/
theorem claim3_theorem :
    (∀ (cfg : HTH.Config) (parse : String → Option URL) (pre post : List HTH.HarEntry)
        (e : HTH.HarEntry), parse e.request.url = none →
        HTH.buildPairs cfg parse (pre ++ e :: post) = HTH.buildPairs cfg parse (pre ++ post)) ∧
    (∀ (hf : String) (parse : String → Option URL) (pre post : List HTH.HarEntry)
        (e : HTH.HarEntry), parse e.request.url = none →
        HTH.buildSummary hf parse (pre ++ e :: post) = HTH.buildSummary hf parse (pre ++ post)) ∧
    (∀ (cfg : ALT.AltConfig) (parse : String → Option URL) (e : ALT.Entry),
        cfg.restrictHost = "" → cfg.ignoreNonText = false → parse e.request.url = none →
        ALT.altProcessEntry cfg parse e = some (ALT.convertEntryToPair parse e cfg.sizeLimit) ∧
        (ALT.convertEntryToPair parse e cfg.sizeLimit).request.destination = [⟨"exact", ""⟩] ∧
        (ALT.convertEntryToPair parse e cfg.sizeLimit).request.path = [⟨"exact", ""⟩]) := by
  refine ⟨?_, ?_, ?_⟩
  · intro cfg parse pre post e h
    exact filterMap_skip _ pre post e (by simp [HTH.processEntry, h])
  · intro hf parse pre post e h
    exact buildSummary_skip hf parse pre post e (by simp [HTH.summaryEntry, h])
  · intro cfg parse e hhost hign h
    refine ⟨?_, ?_, ?_⟩
    · simp [ALT.altProcessEntry, hhost, hign]
    · simp [ALT.convertEntryToPair, ALT.parseURL, h]
    · simp [ALT.convertEntryToPair, ALT.parseURL, h]

/-- Claim C3 counterexample: in the second variant an entry whose URL
fails to parse still yields a pair in the output document. -/
theorem claim3_counterexample :
    noParse altEntryBadURL.request.url = none ∧
    (ALT.altBuildPairs ⟨0, false, ALT.defaultAllowedTypes, ""⟩ noParse [altEntryBadURL]).length
      = 1 :=
  ⟨rfl, by decide⟩

/-- Claim C3 witness: in the first variant, dropping a concrete entry
with an unparseable URL leaves the document unchanged. -/
theorem claim3_witness :
    HTH.buildPairs ⟨-1, false, ""⟩ demoParse [badEntry, demoEntry] =
      HTH.buildPairs ⟨-1, false, ""⟩ demoParse [demoEntry] :=
  claim3_theorem.1 ⟨-1, false, ""⟩ demoParse [] [demoEntry] badEntry (by decide)

/-- Claim C4 (amended): the first variant is text-like exactly when
the lower-cased content type contains json, text or xml, so any
content type containing text is text-like there; the second variant
with its default allowed list is text-like exactly when the lower-cased
MIME type contains json, xml, text/html or text/javascript, so a MIME
type containing text but none of those four tokens is non-text. -/
theorem claim4_theorem (contentType : String) :
    (HTH.isTextContentType contentType = true ↔
      (goContains (goToLower contentType) "json" = true ∨
        goContains (goToLower contentType) "text" = true ∨
        goContains (goToLower contentType) "xml" = true)) ∧
    (goContains (goToLower contentType) "text" = true →
      HTH.isTextContentType contentType = true) ∧
    (ALT.isTextContent contentType (ALT.allowedContentTypes ALT.defaultAllowedTypes) = true ↔
      (goContains (goToLower contentType) "json" = true ∨
        goContains (goToLower contentType) "xml" = true ∨
        goContains (goToLower contentType) "text/html" = true ∨
        goContains (goToLower contentType) "text/javascript" = true)) := by
  refine ⟨?_, ?_, ?_⟩
  · simp [HTH.isTextContentType, Bool.or_eq_true, or_assoc]
  · intro h
    simp [HTH.isTextContentType, h]
  · rw [show ALT.allowedContentTypes ALT.defaultAllowedTypes =
        ["json", "xml", "text/html", "text/javascript"] from rfl]
    simp [ALT.isTextContent, List.any_eq_true]

/-- Claim C4 counterexample: text/plain contains the token text, yet
the second variant with its default allowed list classifies it
non-text. -/
theorem claim4_counterexample :
    goContains (goToLower "text/plain") "text" = true ∧
    ALT.isTextContent "text/plain" (ALT.allowedContentTypes ALT.defaultAllowedTypes) = false :=
  ⟨by decide, by decide⟩

/-- Claim C4 witness: the first variant classifies text/plain as
text-like. -/
theorem claim4_witness : HTH.isTextContentType "text/plain" = true :=
  ( claim4_theorem "text/plain").2.1 (by decide)

/-- Claim C5 (amended): in the first variant an entry is included
exactly when its parsed host equals the configured host (or no host is
configured); in the second variant the filter instead tests substring
containment of the configured host in the raw URL string, not in the
parsed destination host; in both variants a filtered-out entry
contributes no pair to the output document. -/
theorem claim5_theorem :
    (∀ (cfg : HTH.Config) (parse : String → Option URL) (e : HTH.HarEntry) (u : URL),
        cfg.hostFilter ≠ "" → parse e.request.url = some u → u.host ≠ cfg.hostFilter →
        HTH.processEntry cfg parse e = none) ∧
    (∀ (cfg : HTH.Config) (parse : String → Option URL) (e : HTH.HarEntry) (u : URL),
        parse e.request.url = some u → (cfg.hostFilter = "" ∨ u.host = cfg.hostFilter) →
        HTH.processEntry cfg parse e = some (HTH.buildPair cfg u e)) ∧
    (∀ (cfg : ALT.AltConfig) (parse : String → Option URL) (e : ALT.Entry),
        cfg.restrictHost ≠ "" → goContains e.request.url cfg.restrictHost = false →
        ALT.altProcessEntry cfg parse e = none) ∧
    (∀ (cfg : HTH.Config) (parse : String → Option URL) (pre post : List HTH.HarEntry)
        (e : HTH.HarEntry), HTH.processEntry cfg parse e = none →
        HTH.buildPairs cfg parse (pre ++ e :: post) = HTH.buildPairs cfg parse (pre ++ post)) ∧
    (∀ (cfg : ALT.AltConfig) (parse : String → Option URL) (pre post : List ALT.Entry)
        (e : ALT.Entry), ALT.altProcessEntry cfg parse e = none →
        ALT.altBuildPairs cfg parse (pre ++ e :: post) = ALT.altBuildPairs cfg parse (pre ++ post)) := by
  refine ⟨?_, ?_, ?_, ?_, ?_⟩
  · intro cfg parse e u hne hp hhost
    simp [HTH.processEntry, hp, hne, hhost]
  · intro cfg parse e u hp hin
    rcases hin with hin | hin <;> simp [HTH.processEntry, hp, hin]
  · intro cfg parse e hne hcon
    simp [ALT.altProcessEntry, hne, hcon]
  · intro cfg parse pre post e h
    exact filterMap_skip _ pre post e h
  · intro cfg parse pre post e h
    exact filterMap_skip _ pre post e h

/-- Claim C5 counterexample: in the second variant an entry whose
parsed destination host is evil.example — which neither equals nor
contains the configured host api.example.com — is still included,
because the raw URL string mentions the configured host in its query. -/
theorem claim5_counterexample :
    ((ALT.altBuildPairs ⟨0, false, ALT.defaultAllowedTypes, "api.example.com"⟩ demoParse
        [altEntryEvil]).map fun p => p.request.destination) = [[⟨"exact", "evil.example"⟩]] ∧
    goContains "evil.example" "api.example.com" = false :=
  ⟨by decide, by decide⟩

/-- Claim C5 witness: a concrete entry whose parsed host differs from
a configured host is excluded by the first variant. -/
theorem claim5_witness :
    HTH.processEntry ⟨-1, false, "other.example"⟩ demoParse demoEntry = none :=
  claim5_theorem.1 ⟨-1, false, "other.example"⟩ demoParse demoEntry demoURL (by decide)
    (by decide) (by decide)

/-- Claim C6: every pair in the output document of either variant uses
only exact request matchers, over method, destination, path, body, and
every header and query value. -/
theorem claim6_theorem :
    (∀ (cfg : HTH.Config) (parse : String → Option URL) (entries : List HTH.HarEntry)
        (p : HTH.Pair), p ∈ HTH.buildPairs cfg parse entries →
        ∀ (n k : String) (fm : HTH.FieldMatcher),
          (fm ∈ p.request.method ∨ fm ∈ p.request.destination ∨ fm ∈ p.request.path ∨
            fm ∈ p.request.body.getD [] ∨ fm ∈ p.request.headers n ∨ fm ∈ p.request.query k) →
          fm.matcher = "exact") ∧
    (∀ (cfg : ALT.AltConfig) (parse : String → Option URL) (entries : List ALT.Entry)
        (p : HTH.Pair), p ∈ ALT.altBuildPairs cfg parse entries →
        ∀ (n k : String) (fm : HTH.FieldMatcher),
          (fm ∈ p.request.method ∨ fm ∈ p.request.destination ∨ fm ∈ p.request.path ∨
            fm ∈ p.request.body.getD [] ∨ fm ∈ p.request.headers n ∨ fm ∈ p.request.query k) →
          fm.matcher = "exact") := by
  constructor
  · intro cfg parse entries p hp n k fm h
    rcases List.mem_filterMap.mp hp with ⟨a, _, hfa⟩
    cases hu : parse a.request.url with
    | none => simp [HTH.processEntry, hu] at hfa
    | some u =>
      simp only [HTH.processEntry, hu] at hfa
      split at hfa
      · exact absurd hfa (by simp)
      · obtain rfl := Option.some.inj hfa
        exact buildPair_matchers_exact cfg u a n k fm h
  · intro cfg parse entries p hp n k fm h
    rcases List.mem_filterMap.mp hp with ⟨a, _, hfa⟩
    simp only [ALT.altProcessEntry] at hfa
    split at hfa
    · exact absurd hfa (by simp)
    · split at hfa
      · exact absurd hfa (by simp)
      · obtain rfl := Option.some.inj hfa
        exact convertPair_matchers_exact parse a cfg.sizeLimit n k fm h

/-- Claim C6 witness: the theorem applies to the destination matcher
of a concretely built pair. -/
theorem claim6_witness : (⟨"exact", "api.example.com"⟩ : HTH.FieldMatcher).matcher = "exact" := by
  have hmem : HTH.buildPair ⟨-1, false, ""⟩ demoURL demoEntry ∈
      HTH.buildPairs ⟨-1, false, ""⟩ demoParse [demoEntry] := by
    rw [show HTH.buildPairs ⟨-1, false, ""⟩ demoParse [demoEntry] =
        [HTH.buildPair ⟨-1, false, ""⟩ demoURL demoEntry] from rfl]
    exact List.mem_singleton.mpr rfl
  exact claim6_theorem.1 ⟨-1, false, ""⟩ demoParse [demoEntry] _ hmem "Accept" "category"
    ⟨"exact", "api.example.com"⟩ (Or.inr (Or.inl (List.mem_singleton.mpr rfl)))

/-- Claim C7: a non-empty post-data text becomes a single exact body
matcher; an empty post-data text leaves the body field absent (none),
never an empty list. -/
theorem claim7_theorem (cfg : HTH.Config) (u : URL) (e : HTH.HarEntry) :
    (e.request.postDataText ≠ "" →
      (HTH.buildPair cfg u e).request.body = some [⟨"exact", e.request.postDataText⟩]) ∧
    (e.request.postDataText = "" → (HTH.buildPair cfg u e).request.body = none) := by
  constructor
  · intro h
    simp [HTH.buildPair, h]
  · intro h
    simp [HTH.buildPair, h]

/-- Claim C7 witness: a concrete entry with body text x=1 gets a
single exact body matcher; a concrete entry with empty body text gets
no body field. -/
theorem claim7_witness :
    (HTH.buildPair ⟨-1, false, ""⟩ demoURL postEntry).request.body = some [⟨"exact", "x=1"⟩] ∧
    (HTH.buildPair ⟨-1, false, ""⟩ demoURL demoEntry).request.body = none :=
  ⟨(claim7_theorem ⟨-1, false, ""⟩ demoURL postEntry).1 (by decide),
    (claim7_theorem ⟨-1, false, ""⟩ demoURL demoEntry).2 rfl⟩

/-- Claim C8: the header map of a built pair holds, under each name,
one exact matcher per observed header of that name in observation
order, and the query map holds, under each key, one exact matcher per
observed value in observation order — repeated names are never
collapsed. -/
theorem claim8_theorem (cfg : HTH.Config) (u : URL) (e : HTH.HarEntry) (name key : String) :
    (HTH.buildPair cfg u e).request.headers name =
      (e.request.headers.filter fun h => name = h.name).map
        (fun h => (⟨"exact", h.value⟩ : HTH.FieldMatcher)) ∧
    (HTH.buildPair cfg u e).request.query key =
      ((u.queryGroups.filter fun g => key = g.1).map
        (fun g => g.2.map fun v => (⟨"exact", v⟩ : HTH.FieldMatcher))).flatten :=
  ⟨buildReqHeaders_eq e.request.headers name, buildReqQuery_eq u.queryGroups key⟩

/-- Length of a character-level slice followed by a suffix. -/
theorem length_goSlice_append (s : String) (n : Nat) (t : String) :
    (goSlice s n ++ t).length = min n s.length + t.length := by
  show ((goSlice s n ++ t).data).length = _
  rw [show (goSlice s n ++ t).data = s.data.take n ++ t.data from rfl, List.length_append,
    List.length_take]
  rfl

/-- Claim C9: for the widths the summary renderers use (both larger
than the ellipsis), a value no longer than the width is rendered
unchanged, and a longer value is rendered as a slice of itself plus
the ellipsis marker, the rendered length being exactly the width. -/
theorem claim9_theorem (s : String) (max : Nat) (hmax : 3 < max) :
    (s.length ≤ max → HTH.truncate s max = s ∧ ALT.truncate s max = s) ∧
    (max < s.length →
      HTH.truncate s max = goSlice s (max - 3) ++ "..." ∧
      ALT.truncate s max = goSlice s (max - 3) ++ "..." ∧
      (HTH.truncate s max).length = max) := by
  constructor
  · intro hle
    constructor
    · simp [HTH.truncate, hle]
    · simp [ALT.truncate, Nat.not_lt.mpr hle]
  · intro hgt
    have h1 : ¬ s.length ≤ max := Nat.not_le.mpr hgt
    have h2 : ¬ max ≤ 3 := Nat.not_le.mpr hmax
    have heq : HTH.truncate s max = goSlice s (max - 3) ++ "..." := by
      simp [HTH.truncate, h1, h2]
    refine ⟨heq, by simp [ALT.truncate, hgt], ?_⟩
    rw [heq, length_goSlice_append,
      min_eq_left (le_trans (Nat.sub_le max 3) (le_of_lt hgt))]
    show max - 3 + 3 = max
    omega

/-- Claim C9 witness: truncation at width 10 leaves a short value
unchanged and renders an eleven-character value as a seven-character
slice plus the ellipsis. -/
theorem claim9_witness :
    HTH.truncate "abc" 10 = "abc" ∧ HTH.truncate "abcdefghijk" 10 = "abcdefg..." ∧
    (HTH.truncate "abcdefghijk" 10).length = 10 := by
  have h1 := ( claim9_theorem "abc" 10 (by decide)).1 (by decide)
  have h2 := ( claim9_theorem "abcdefghijk" 10 (by decide)).2 (by decide)
  refine ⟨h1.1, ?_, h2.2.2⟩
  rw [h2.1]
  decide

/-- Claim C10: an exchange with no Content-Type response header (and,
in the second variant, an empty MIME type) is classified non-text, so
with the substitution flag set and size redaction not triggered the
emitted body is the sentinel literal regardless of the actual body
text. -/
theorem claim10_theorem (cfg : HTH.Config) (u : URL) (e : HTH.HarEntry)
    (hskip : cfg.skipNonText = true)
    (hnoct : ∀ x ∈ e.response.headers, ¬ goToLower x.name = "content-type")
    (hsize : cfg.maxResponseSize < 0 ∨
      (e.response.contentText.length : Int) ≤ cfg.maxResponseSize) :
    HTH.contentTypeOf e.response.headers = "" ∧
    HTH.isTextContentType "" = false ∧
    (HTH.buildPair cfg u e).response.body = "NON_TEXT_RESPONSE_SKIPPED" ∧
    ALT.isTextContent "" (ALT.allowedContentTypes ALT.defaultAllowedTypes) = false := by
  have hct : HTH.contentTypeOf e.response.headers = "" :=
    foldlContentType_eq e.response.headers "" hnoct
  refine ⟨hct, by decide, ?_, by decide⟩
  show HTH.computeResponseBody cfg (HTH.contentTypeOf e.response.headers)
      e.response.contentText = _
  rw [hct]
  simp only [HTH.computeResponseBody]
  rw [if_pos ⟨hskip, by decide⟩]

/-- Claim C10 witness: a concrete exchange whose only response header
is X-Powered-By, with the substitution flag set and no size limit, is
emitted with the sentinel body although its body text is plain text. -/
theorem claim10_witness :
    (HTH.buildPair ⟨-1, true, ""⟩ demoURL postEntry).response.body =
      "NON_TEXT_RESPONSE_SKIPPED" :=
  (claim10_theorem ⟨-1, true, ""⟩ demoURL postEntry rfl (by decide) (by decide)).2.2.1
